import Mathlib

/-!
Verification development for the SON (Smalltalk Object Notation) environment.

The definitions below are a shallow embedding of the final versions of
`client/src/lib/son/interpreter.ts`, `client/src/lib/son/environment.ts`,
`client/src/lib/son/errors.ts` (the revision in which `NonLocalReturnError`
carries a `homeContext` target) and of the server persistence handlers in
`server/api/persistenceHandlers.ts`.

Modelling conventions:
* JS numbers are modelled as rationals (`ℚ`); the bit-level IEEE-754 rounding
  of host arithmetic is outside the model, but zero tests and the arithmetic
  used by the claims are preserved.
* `SonEnvironment` objects are heap nodes addressed by index into a list; JS
  reference identity of environments is index equality.  Symbol objects
  (`{"#": name}`) and block closures carry an object id so that JS `===`
  (reference identity) on them is expressible; fresh ids are drawn from a
  counter in the machine state.
* Exceptions (`LocalReturnError`, `NonLocalReturnError`, the `SonError`
  family, and host-level JS faults such as `ReferenceError`) are modelled as
  non-`ok` outcomes that propagate exactly where the source rethrows them.
* The interpreter functions are indexed by fuel; `fuelOut` marks exhaustion
  and is treated like an uncatchable signal.  Fuel only bounds recursion
  depth; every claim is stated either for arbitrary sufficient fuel or at a
  concrete input with concrete fuel.
* The `JSBridge` object and plain JSON objects used as class tables never
  occur in the modelled heaps (after `mergeBaseEnvironment` every class is a
  `SonEnvironment` and the bridge is bound only in the browser UI), so `Val`
  omits them; the corresponding source branches are noted where they are
  skipped.
-/

namespace Son

/-- Runtime/AST values of the SON interpreter (`SonValue` in `types.ts`).
One type serves as both AST and value, exactly as in the source where SON
programs are plain JSON.  `sym` models a `{"#": name}` object (`oid` is its
JS object identity), `block` a `SonBlock` closure (body is always an array in
the source constructor at interpreter.ts:1332), `envRef` a reference to a
`SonEnvironment` heap node. -/
inductive Val where
  | num (q : ℚ)
  | str (s : String)
  | bool (b : Bool)
  | null
  | sym (oid : Nat) (name : String)
  | arr (xs : List Val)
  | block (oid : Nat) (argNames : List String) (body : List Val)
      (lexicalScope : Nat) (homeContext : Option Nat)
  | envRef (e : Nat)

/-- A `SonMethodImplementation` (types.ts): argument names plus a raw SON body.
`defineMethod` (environment.ts:183) always stores this shape, so method
tables never hold the `{primitive: tag}` marker shape that
`findMethodRecursively` also recognises; that branch is consequently
unreachable in the modelled system and is omitted below. -/
structure MethodImpl where
  argNames : List String
  body : Val

/-- One `SonEnvironment` node (environment.ts): variable bindings, the local
method table, the parent link, the method-context flag, and the stored
receiver.  The constructor binds `self` when `isMethodContext` and
`methodSelf` is provided (environment.ts:56-58); `createChildState` below
performs that. -/
structure EnvNode where
  vars : List (String × Val)
  methods : List (String × MethodImpl)
  parent : Option Nat
  isMethodContext : Bool
  methodSelf : Option Val

/-- Machine state: the arena of environment nodes plus the counter from which
fresh JS object identities (new symbol literals, new block closures) are
drawn. -/
structure St where
  heap : List EnvNode
  nextObj : Nat

/-- Errors of the interpreter (errors.ts) plus the host-level JS faults the
source can raise: `refErr` models a JS `ReferenceError` (reading an
undeclared variable of the *interpreter source itself*), `jsErr` a plain
`Error`/`TypeError`. -/
inductive Err where
  | varNotFound (name : String)
  | mnu (receiver : Val) (selector : String)
  | argErr (msg : String)
  | sonErr (msg : String)
  | refErr (name : String)
  | jsErr (msg : String)

/-- Result of one evaluation step: a normal value, the two return control
signals (`LocalReturnError`, `NonLocalReturnError(value, homeContext)`), an
error, or fuel exhaustion. -/
inductive Outcome where
  | ok (v : Val)
  | localReturn (v : Val)
  | nonLocalReturn (v : Val) (target : Nat)
  | err (e : Err)
  | fuelOut

/-- Result of `getClassOf`: the class object (`some` = a `SonEnvironment`,
`none` = JS `null`), an error, or fuel exhaustion. -/
inductive CRes where
  | ok (c : Option Nat)
  | err (e : Err)
  | fuelOut

/-- Result of evaluating an argument list: the values, or a propagated
non-`ok` outcome. -/
inductive ArgsOut where
  | ok (vs : List Val)
  | thrown (o : Outcome)

/-! ### Association-list and heap primitives -/

/-- Lookup in an insertion-ordered map (JS `Map.get`). -/
def assocGet (k : String) : List (String × α) → Option α
  | [] => none
  | (k', v) :: rest => if k' = k then some v else assocGet k rest

/-- Update in an insertion-ordered map (JS `Map.set`: replace in place if the
key exists, else append). -/
def assocSet (k : String) (v : α) : List (String × α) → List (String × α)
  | [] => [(k, v)]
  | (k', v') :: rest =>
      if k' = k then (k, v) :: rest else (k', v') :: assocSet k v rest

/-- The method `SonEnvironment.get` (environment.ts:69-81): local bindings first, then
the parent chain; `VariableNotFoundError` at the root.  Fuel bounds the chain
walk; call sites pass `heap.length + 1`, enough for any heap whose parent
links decrease. -/
def envGet : Nat → List EnvNode → Nat → String → Except Err Val
  | 0, _, _, name => .error (.varNotFound name)
  | f + 1, h, i, name =>
    match h[i]? with
    | none => .error (.varNotFound name)
    | some n =>
      match assocGet name n.vars with
      | some v => .ok v
      | none =>
        match n.parent with
        | some p => envGet f h p name
        | none => .error (.varNotFound name)

/-- The method `SonEnvironment.set` (environment.ts:89-92): writes the local scope only,
never the parent chain. -/
def envSet (h : List EnvNode) (i : Nat) (name : String) (v : Val) :
    List EnvNode :=
  match h[i]? with
  | some n => h.set i { n with vars := assocSet name v n.vars }
  | none => h

/-- The method `SonEnvironment.lookupMethodLocally` (environment.ts:217-219). -/
def lookupMethodLocally (h : List EnvNode) (i : Nat) (sel : String) :
    Option MethodImpl :=
  match h[i]? with
  | some n => assocGet sel n.methods
  | none => none

/-- The method `SonEnvironment.defineMethod` (environment.ts:183-192): installs an
implementation into the local method table. -/
def defineMethodInHeap (h : List EnvNode) (i : Nat) (sel : String)
    (argNames : List String) (body : Val) : List EnvNode :=
  match h[i]? with
  | some n =>
      h.set i { n with methods := assocSet sel ⟨argNames, body⟩ n.methods }
  | none => h

/-- The method `SonEnvironment.createChild` plus the constructor (environment.ts:48-60):
allocates a child node; when it is a method context with a receiver, `self`
is pre-bound.  Returns the new node's id (JS object identity) and state. -/
def createChildState (st : St) (parentId : Nat) (mc : Bool)
    (mself : Option Val) : Nat × St :=
  let vars : List (String × Val) :=
    match mc, mself with
    | true, some r => [("self", r)]
    | _, _ => []
  (st.heap.length,
    { st with
        heap := st.heap ++ [⟨vars, [], some parentId, mc, mself⟩] })

/-- Whether heap node `i` is a method context. -/
def isMethodContextAt (h : List EnvNode) (i : Nat) : Bool :=
  match h[i]? with
  | some n => n.isMethodContext
  | none => false

/-- The helper `findHomeContext` (interpreter.ts:627-637): the nearest environment on
the parent chain (starting at `i` itself) marked as a method context. -/
def findHomeContext : Nat → List EnvNode → Nat → Option Nat
  | 0, _, _ => none
  | f + 1, h, i =>
    match h[i]? with
    | none => none
    | some n =>
      if n.isMethodContext then some i
      else
        match n.parent with
        | some p => findHomeContext f h p
        | none => none

/-! ### String and JS-semantics helpers

The JS string operations are re-implemented over the character list of the
string (`String.data`): the Lean core versions are defined through
`Substring` position arithmetic that the kernel cannot evaluate, which these
structurally recursive versions mirror observably (for the ASCII strings the
system manipulates) while remaining computable in proofs. -/

/-- JS `split(':')`: colon-separated groups, keeping empty ones. -/
def splitColon : List Char → List (List Char)
  | [] => [[]]
  | ':' :: rest => [] :: splitColon rest
  | c :: rest =>
    match splitColon rest with
    | g :: gs => (c :: g) :: gs
    | [] => [[c]]

/-- Number of non-empty colon-separated selector parts:
`selector.split(':').filter(p => p.length > 0).length` (interpreter.ts:1373). -/
def colonParts (s : String) : Nat :=
  ((splitColon s.data).filter (fun p => p ≠ [])).length

/-- Whether a selector contains a colon (`selector.includes(':')`). -/
def hasColon (s : String) : Bool :=
  s.data.contains ':'

/-- Whether a string starts with `$` (variable-reference test). -/
def startsDollar (s : String) : Bool :=
  match s.data with
  | '$' :: _ => true
  | _ => false

/-- Whether a string ends with a colon (`endsWith(':')`). -/
def endsColon (s : String) : Bool :=
  match s.data.getLast? with
  | some ':' => true
  | _ => false

/-- ASCII whitespace for the JS `trim()` model (the payloads at issue only
carry ASCII blanks). -/
def isWsChar (c : Char) : Bool :=
  c = ' ' || c = '\t' || c = '\n' || c = '\r'

/-- JS `String.prototype.trim`: strip leading and trailing whitespace. -/
def jsTrim (s : String) : String :=
  String.mk (((s.data.dropWhile isWsChar).reverse.dropWhile isWsChar).reverse)

/-- Number of leading `value:` groups a string is made of, `none` if the
string is not of that exact shape. -/
def valueColonGroups : List Char → Option Nat
  | [] => some 0
  | 'v' :: 'a' :: 'l' :: 'u' :: 'e' :: ':' :: rest =>
      (valueColonGroups rest).map (· + 1)
  | _ => none

/-- The `value` selector family test of interpreter.ts:1077-1078:
`value` takes 0 arguments; `value:`, `value:value:`, ... take
`selector.split(':').length - 1`. -/
def valueFamilyArity (sel : String) : Option Nat :=
  if sel = "value" then some 0
  else
    match valueColonGroups sel.data with
    | some n => if 1 ≤ n then some ((splitColon sel.data).length - 1) else none
    | none => none

/-- JS strict equality (`===`) on modelled values.  Primitives compare by
value, objects by reference identity: environments by heap index, symbol and
block objects by their object id.  Identity of array objects is not tracked
(two `arr` values are conservatively unequal; no modelled program compares
arrays with `===`). -/
def jsStrictEq : Val → Val → Bool
  | .num a, .num b => decide (a = b)
  | .str a, .str b => decide (a = b)
  | .bool a, .bool b => decide (a = b)
  | .null, .null => true
  | .sym i _, .sym j _ => decide (i = j)
  | .envRef a, .envRef b => decide (a = b)
  | .block i _ _ _ _, .block j _ _ _ _ => decide (i = j)
  | _, _ => false

/-- JS `String(x)` on a number, used by `primitive:NumberToString:` and
`primitive:PrintString:`.  The exact JS decimal rendering is not modelled
(no claim depends on it); the rendering is still a deterministic function of
the number. -/
def numToString (q : ℚ) : String :=
  toString q

mutual

/-- JS `String(x)` for the remaining value shapes reached by
`primitive:PrintString:` after its `nil`/symbol/block special cases.
Array elements render as in `Array.prototype.join` (null joins as ""). -/
def jsToString : Val → String
  | .num q => numToString q
  | .str s => s
  | .bool b => if b then "true" else "false"
  | .null => "null"
  | .sym _ _ => "[object Object]"
  | .block _ _ _ _ _ => "[object Object]"
  | .envRef _ => "[object Object]"
  | .arr xs => String.intercalate "," (jsToStringElems xs)

/-- Elementwise rendering for JS array `toString` (`null` renders empty in a
join). -/
def jsToStringElems : List Val → List String
  | [] => []
  | .null :: rest => "" :: jsToStringElems rest
  | v :: rest => jsToString v :: jsToStringElems rest

end

/-! ### Variable strings, class resolution, method lookup -/

/-- The string case of `evaluate` (interpreter.ts:1214-1229): `"$name"` is a
variable reference (`"$env"` yields the current environment, a bare `"$"` is
an error), anything else is a string literal.  `getClassOf` re-enters
`evaluate` on `"$..."` strings; since `evaluate` then only executes this
branch, the logic is shared here. -/
def evalVarString (h : List EnvNode) (envId : Nat) (s : String) :
    Except Err Val :=
  if startsDollar s then
    let varName := s.drop 1
    if varName = "" then .error (.jsErr "Invalid variable name")
    else if varName = "env" then .ok (.envRef envId)
    else envGet (h.length + 1) h envId varName
  else .ok (.str s)

/-- Lookup of the class object bound under `className`, inlining
`getClassOf({}, env)` (interpreter.ts:715, 727, 739): a plain empty object
resolves to class name `Object`, whose binding must be a `SonEnvironment`
(after `mergeBaseEnvironment` class bindings always are); a non-environment
binding yields JS `null`, a missing binding is the fatal
"`Object` class missing" error. -/
def objectClassLookup (h : List EnvNode) (envId : Nat) : CRes :=
  match envGet (h.length + 1) h envId "Object" with
  | .ok (.envRef c) => .ok (some c)
  | .ok _ => .ok none
  | .error (.varNotFound _) =>
      .err (.jsErr "Critical Error: SON Object class definition missing from environment.")
  | .error e => .err e

/-- The class-name lookup tail of `getClassOf` (interpreter.ts:696-734):
resolve `className` through the environment chain; a `SonEnvironment`
binding is the class object; a binding of any other shape warns and falls
back to the `Object` class, as does a `VariableNotFoundError` on a
non-`Object` class name; a missing `Object` binding is fatal. -/
def classLookup (h : List EnvNode) (envId : Nat) (className : String) :
    CRes :=
  match envGet (h.length + 1) h envId className with
  | .ok (.envRef c) => .ok (some c)
  | .ok _ =>
      if className = "Object" then .ok none
      else objectClassLookup h envId
  | .error (.varNotFound _) =>
      if className = "Object" then
        .err (.jsErr "Critical Error: SON Object class definition missing from environment.")
      else objectClassLookup h envId
  | .error e => .err e

/-- The resolver `getClassOf` (interpreter.ts:648-744): map a runtime value to its class
object.  An environment value is its own class; a `"$..."` string value is
evaluated and classified recursively (a failure there falls back to class
`String`); the remaining shapes map to their class names.  The `JSBridge`
branch (returns `null`) is omitted: the bridge object never occurs in the
modelled heaps. -/
def getClassOf : Nat → List EnvNode → Nat → Val → CRes
  | 0, _, _, _ => .fuelOut
  | f + 1, h, envId, v =>
    match v with
    | .envRef e => .ok (some e)
    | .str s =>
      if startsDollar s then
        match evalVarString h envId s with
        | .ok v' => getClassOf f h envId v'
        | .error _ => classLookup h envId "String"
      else classLookup h envId "String"
    | .null => classLookup h envId "UndefinedObject"
    | .num _ => classLookup h envId "Number"
    | .bool _ => classLookup h envId "Boolean"
    | .sym _ _ => classLookup h envId "Symbol"
    | .block _ _ _ _ _ => classLookup h envId "BlockClosure"
    | .arr _ => classLookup h envId "Object"
termination_by structural f _ _ _ => f

/-- The lookup `findMethodRecursively` (interpreter.ts:970-1020).  Consult the class's
own method table first.  On a miss the source guard
`currentClassObject !== env.get('Object') && className !== 'Object'`
evaluates `env.get('Object')` (whose `VariableNotFoundError` is not caught
here) and, when the class is not the `Object` class, then reads `className`
— an identifier that is not in scope in `sendMessage` — raising a JS
`ReferenceError`; only when the class *is* the `Object` binding does lookup
fall through to the not-found result.  The recursive call into the `Object`
class at interpreter.ts:1012-1015 is therefore unreachable, as is the
`{primitive: tag}` marker branch (method tables only ever hold
`defineMethod`-created implementations). -/
def findMethod (h : List EnvNode) (envId : Nat) (cls : Option Nat)
    (sel : String) : Except Err (Option MethodImpl) :=
  match cls with
  | none => .ok none
  | some c =>
    match lookupMethodLocally h c sel with
    | some impl => .ok (some impl)
    | none =>
      match envGet (h.length + 1) h envId "Object" with
      | .error e => .error e
      | .ok objV =>
        if jsStrictEq (.envRef c) objV then .ok none
        else .error (.refErr "className")

/-- The fallback `lookupAndSendJSProperty` (interpreter.ts:757-794), the deprecated
last-resort fallback.  For a `null` receiver the source calls `getClassOf`
without an environment, so the `env.get` inside it dereferences `undefined`
and a JS `TypeError` escapes.  For primitive receivers the `in` operator
itself throws a `TypeError` whenever it is evaluated (zero arguments, or one
argument with a keyword selector).  Object-shaped receivers (symbols,
blocks, arrays, environments) would expose raw JS properties whose values
lie outside `Val`; no modelled program reaches this branch with such a
receiver (their lookups either succeed or fault earlier), and it is mapped
to the function's final `MessageNotUnderstoodError`. -/
def jsPropertyFallback (receiver : Val) (sel : String) (args : List Val)
    (st : St) : Outcome × St :=
  match receiver with
  | .null =>
      (.err (.jsErr "TypeError: cannot read properties of undefined (getClassOf without env)"), st)
  | .num _ | .str _ | .bool _ =>
      if args.length = 0 then
        (.err (.jsErr "TypeError: cannot use in operator on a primitive"), st)
      else if args.length = 1 && endsColon sel then
        (.err (.jsErr "TypeError: cannot use in operator on a primitive"), st)
      else (.err (.mnu receiver sel), st)
  | _ => (.err (.mnu receiver sel), st)

/-! ### Primitive argument checking (interpreter.ts:815-836) -/

/-- The `actualType` computation of `checkArgs`: JS `typeof`, with `null`
special-cased and symbol/block objects tagged before generic objects. -/
def typeTagOf : Val → String
  | .null => "null"
  | .num _ => "number"
  | .str _ => "string"
  | .bool _ => "boolean"
  | .sym _ _ => "symbol"
  | .block _ _ _ _ _ => "block"
  | .envRef _ => "object"
  | .arr _ => "object"

/-- One expected/actual comparison of `checkArgs`: `any` matches everything,
`object` additionally accepts `null`. -/
def argTypeOk (expected : String) (v : Val) : Bool :=
  expected = "any" || typeTagOf v = expected ||
    (expected = "object" && typeTagOf v = "null")

/-- The validator `checkArgs` of `handlePrimitive`: arity over `[self, ...args]`, then the
type of each position. -/
def checkArgs (types : List String) (actualArgs : List Val) : Option Err :=
  if types.length ≠ actualArgs.length then
    some (.argErr "Primitive arity mismatch")
  else if (types.zip actualArgs).all (fun p => argTypeOk p.1 p.2) then none
  else some (.argErr "Primitive argument type mismatch")

/-- Map a list of SON values to names when every element is a string, as the
block/method argument-name validations do. -/
def allStrings : List Val → Option (List String)
  | [] => some []
  | .str s :: rest => (allStrings rest).map (s :: ·)
  | _ :: _ => none

/-- JS `===` against a string literal, as in the special-form head tests
`first === '^'` and `first === 'define:args:body:'`. -/
def valIsStr (v : Val) (s : String) : Bool :=
  match v with
  | .str t => decide (t = s)
  | _ => false

/-- The assignment-form test of interpreter.ts:1305: a two-element array
whose head is a string ending in a single trailing colon (`name:` with no
other colon, length over one).  Returns the variable name. -/
def assignTarget (v : Val) : Option String :=
  match v with
  | .str s =>
      if endsColon s && 1 < s.length && !(hasColon (s.dropRight 1)) then
        some (s.dropRight 1)
      else none
  | _ => none

/-- Bind method/block arguments pairwise by name into scope `i`
(interpreter.ts:1045-1047, 1090-1092). -/
def bindAll : List String → List Val → Nat → List EnvNode → List EnvNode
  | n :: ns, a :: rest, i, h => bindAll ns rest i (envSet h i n a)
  | _, _, _, h => h

/-- The state of a fresh method activation after argument binding: the
method context child (with `self` pre-bound) plus the `argNames`/`args`
bindings (interpreter.ts:1040-1047). -/
def methodEntry (receiver : Val) (impl : MethodImpl) (args : List Val)
    (envId : Nat) (st : St) : Nat × St :=
  let alloc := createChildState st envId true (some receiver)
  (alloc.1, { alloc.2 with heap := bindAll impl.argNames args alloc.1 alloc.2.heap })

/-! ### The evaluator (final `evaluate`/`sendMessage`, interpreter.ts:547-1417)

All functions take fuel as their first argument; every call passes the
predecessor, so recursion is structural in the fuel and the definitions
reduce in the kernel. -/

mutual

/-- The evaluator `evaluate` (interpreter.ts:1208-1417).  Literals, symbols, blocks and
environments evaluate to themselves; `"$name"` strings resolve through the
environment; arrays are classified in source order: return form, method
definition, assignment, then — after evaluating the first element — block
literal, cascade, keyword/binary/unary send, and finally sequence. -/
def evaluate : Nat → Val → Nat → St → Outcome × St
  | 0, _, _, st => (.fuelOut, st)
  | f + 1, node, envId, st =>
    match node with
    | .num q => (.ok (.num q), st)
    | .bool b => (.ok (.bool b), st)
    | .null => (.ok .null, st)
    | .sym oid n => (.ok (.sym oid n), st)
    | .block oid ns b lex home => (.ok (.block oid ns b lex home), st)
    | .envRef i => (.ok (.envRef i), st)
    | .str s =>
      match evalVarString st.heap envId s with
      | .ok v => (.ok v, st)
      | .error e => (.err e, st)
    | .arr [] => (.ok .null, st)
    | .arr (first :: rest) =>
      if valIsStr first "^" then
        match rest with
        | [e1] =>
          match evaluate f e1 envId st with
          | (.ok v, st1) =>
            let homeCtx := findHomeContext (st1.heap.length + 1) st1.heap envId
            if homeCtx.isNone && !isMethodContextAt st1.heap envId then
              (.err (.sonErr "Cannot return from outside a method context"), st1)
            else if isMethodContextAt st1.heap envId then (.localReturn v, st1)
            else
              match homeCtx with
              | none =>
                  (.err (.sonErr "Cannot perform non-local return from block defined outside a method context"), st1)
              | some t => (.nonLocalReturn v t, st1)
          | r => r
        | _ =>
            (.err (.argErr "Return statement requires exactly one argument"), st)
      else if valIsStr first "define:args:body:" then
        match rest with
        | [selNode, argsNode, bodyNode] =>
          match selNode with
          | .str selector =>
            match argsNode with
            | .arr argList =>
              match allStrings argList with
              | some names =>
                  (.ok (.sym st.nextObj selector),
                   { heap := defineMethodInHeap st.heap envId selector names bodyNode,
                     nextObj := st.nextObj + 1 })
              | none =>
                  (.err (.argErr "Method argument names must be strings"), st)
            | _ =>
                (.err (.argErr "Method arguments must be an array of strings"), st)
          | _ => (.err (.argErr "Method selector must be a string"), st)
        | _ =>
            (.err (.argErr "Method definition requires selector, args array, and body array"), st)
      else
        -- The general path: evaluate the first element, then classify the
        -- remaining elements (interpreter.ts:1316-1404).
        let general := fun (_ : Unit) =>
          match evaluate f first envId st with
          | (.ok v0, st1) =>
            match rest with
            | [.str "=>:", .arr bodyStmts] =>
              match v0 with
              | .arr argVals =>
                match allStrings argVals with
                | some names =>
                    (.ok (.block st1.nextObj names bodyStmts envId
                          (findHomeContext (st1.heap.length + 1) st1.heap envId)),
                     { st1 with nextObj := st1.nextObj + 1 })
                | none =>
                    (.err (.argErr "Block argument names must be strings"), st1)
              | _ => evalSeqFrom f v0 rest envId st1
            | [.str "cascade:", .arr msgs] => runCascade f v0 msgs envId st1
            | .str sel :: argNodes =>
              if sel = "cascade:" || sel = "=>:" then
                evalSeqFrom f v0 rest envId st1
              else if hasColon sel then
                match evalArgs f argNodes envId st1 with
                | (.ok args, st2) =>
                  if colonParts sel = args.length then
                    sendMessage f v0 sel args envId st2
                  else (.err (.argErr "Keyword selector arity mismatch"), st2)
                | (.thrown o, st2) => (o, st2)
              else
                match argNodes with
                | [a1] =>
                  match evaluate f a1 envId st1 with
                  | (.ok a, st2) => sendMessage f v0 sel [a] envId st2
                  | r => r
                | [] => sendMessage f v0 sel [] envId st1
                | _ => evalSeqFrom f v0 rest envId st1
            | _ => evalSeqFrom f v0 rest envId st1
          | r => r
        match assignTarget first, rest with
        | some nm, [e1] =>
          if nm = "^" then general ()
          else
            match evaluate f e1 envId st with
            | (.ok v, st1) =>
                (.ok v, { st1 with heap := envSet st1.heap envId nm v })
            | r => r
        | _, _ => general ()
termination_by structural f _ _ _ => f

/-- Statement-list evaluation with a running result, used for sequences
(result starts at the evaluated first element), and for method and block
bodies (result starts at `null`).  Any non-`ok` outcome aborts and
propagates. -/
def evalSeqFrom : Nat → Val → List Val → Nat → St → Outcome × St
  | 0, _, _, _, st => (.fuelOut, st)
  | _ + 1, acc, [], _, st => (.ok acc, st)
  | f + 1, _, x :: xs, envId, st =>
    match evaluate f x envId st with
    | (.ok v, st1) => evalSeqFrom f v xs envId st1
    | r => r
termination_by structural f _ _ _ _ => f

/-- Left-to-right evaluation of argument expressions
(`argNodes.map(argNode => evaluate(argNode, env))`). -/
def evalArgs : Nat → List Val → Nat → St → ArgsOut × St
  | 0, _, _, st => (.thrown .fuelOut, st)
  | _ + 1, [], _, st => (.ok [], st)
  | f + 1, n :: ns, envId, st =>
    match evaluate f n envId st with
    | (.ok v, st1) =>
      match evalArgs f ns envId st1 with
      | (.ok vs, st2) => (.ok (v :: vs), st2)
      | r => r
    | (o, st1) => (.thrown o, st1)
termination_by structural f _ _ _ => f

/-- The cascade loop (interpreter.ts:1345-1359): each message must be a
non-empty array headed by a string selector; its arguments are evaluated in
the current environment and the message is sent to the already-evaluated
receiver, discarding the result; the cascade answers the receiver. -/
def runCascade : Nat → Val → List Val → Nat → St → Outcome × St
  | 0, _, _, _, st => (.fuelOut, st)
  | _ + 1, r, [], _, st => (.ok r, st)
  | f + 1, r, msg :: more, envId, st =>
    match msg with
    | .arr (selNode :: argNodes) =>
      match selNode with
      | .str msgSel =>
        match evalArgs f argNodes envId st with
        | (.ok margs, st1) =>
          match sendMessage f r msgSel margs envId st1 with
          | (.ok _, st2) => runCascade f r more envId st2
          | r' => r'
        | (.thrown o, st1) => (o, st1)
      | _ => (.err (.argErr "Invalid selector in cascade message"), st)
    | _ => (.err (.argErr "Invalid message format within cascade"), st)
termination_by structural f _ _ _ _ => f

/-- Method body dispatch (interpreter.ts:1051-1058): a non-array body is
evaluated as one node, an array body statement-wise with result starting at
`null`. -/
def methodBodyEval : Nat → Val → Nat → St → Outcome × St
  | 0, _, _, st => (.fuelOut, st)
  | f + 1, body, mid, st =>
    match body with
    | .arr stmts => evalSeqFrom f .null stmts mid st
    | b => evaluate f b mid st
termination_by structural f _ _ _ => f

/-- Execution of a SON method implementation (interpreter.ts:1038-1072, and
its near-verbatim copy for methods found on `BlockClosure`,
interpreter.ts:1150-1165): create the method context (allocated before the
arity check, as in the source), bind arguments, run the body; a completed
body answers the receiver (implicit `self` return); a `LocalReturnError`
*or any* `NonLocalReturnError` — the catch at interpreter.ts:1064-1072 never
inspects the signal's target — answers the signal's value. -/
def runMethodImpl : Nat → Val → MethodImpl → List Val → Nat → St →
    Outcome × St
  | 0, _, _, _, _, st => (.fuelOut, st)
  | f + 1, receiver, impl, args, envId, st =>
    if impl.argNames.length ≠ args.length then
      (.err (.argErr "Method argument count mismatch"),
       (createChildState st envId true (some receiver)).2)
    else
      match methodBodyEval f impl.body (methodEntry receiver impl args envId st).1
              (methodEntry receiver impl args envId st).2 with
      | (.ok _, st3) => (.ok receiver, st3)
      | (.localReturn v, st3) => (.ok v, st3)
      | (.nonLocalReturn v _, st3) => (.ok v, st3)
      | r => r
termination_by structural f _ _ _ _ _ => f

/-- The dispatcher `sendMessage` (interpreter.ts:943-1193).  The `JSBridge` step is skipped
(the bridge object is outside the modelled heaps); then: resolve the class,
look the method up (the `{primitive: tag}` outcome cannot occur, see
`findMethod`), execute a found implementation; a block receiver answers the
`value` family directly or retries the lookup on its class before
`MessageNotUnderstood`; all other receivers fall back to JS property access.
The final catch (interpreter.ts:1175-1192) rethrows
`MessageNotUnderstoodError` unchanged and propagates everything else, so it
is the identity and is not reproduced. -/
def sendMessage : Nat → Val → String → List Val → Nat → St → Outcome × St
  | 0, _, _, _, _, st => (.fuelOut, st)
  | f + 1, receiver, sel, args, envId, st =>
    match getClassOf f st.heap envId receiver with
    | .fuelOut => (.fuelOut, st)
    | .err e => (.err e, st)
    | .ok classObject =>
      match findMethod st.heap envId classObject sel with
      | .error e => (.err e, st)
      | .ok (some impl) => runMethodImpl f receiver impl args envId st
      | .ok none =>
        match receiver with
        | .block _ bArgs bBody bLex bHome =>
          match valueFamilyArity sel with
          | some expected =>
            if args.length ≠ expected then
              (.err (.argErr "Block value arity mismatch"), st)
            else if bArgs.length ≠ args.length then
              (.err (.argErr "Block definition arity mismatch"), st)
            else
              let alloc := createChildState st bLex false none
              let st2 : St :=
                { alloc.2 with
                    heap := bindAll bArgs args alloc.1 alloc.2.heap }
              match evalSeqFrom f .null bBody alloc.1 st2 with
              | (.ok v, st3) => (.ok v, st3)
              | (.nonLocalReturn v t, st3) =>
                -- interpreter.ts:1106-1132: a matching home context is
                -- rethrown; a null home context is a SonError; a mismatched
                -- target is still rethrown (with a console warning only).
                if bHome = some t then (.nonLocalReturn v t, st3)
                else
                  match bHome with
                  | none =>
                      (.err (.sonErr "Cannot perform non-local return from block defined outside a method context"), st3)
                  | some _ => (.nonLocalReturn v t, st3)
              | (.localReturn _, st3) =>
                  (.err (.sonErr "Cannot perform local return from within a block context"), st3)
              | r => r
          | none =>
            -- interpreter.ts:1139-1170: repeat the class lookup for the
            -- block and execute a found method, else MessageNotUnderstood.
            match getClassOf f st.heap envId receiver with
            | .fuelOut => (.fuelOut, st)
            | .err e => (.err e, st)
            | .ok bc =>
              match findMethod st.heap envId bc sel with
              | .error e => (.err e, st)
              | .ok (some impl2) => runMethodImpl f receiver impl2 args envId st
              | .ok none => (.err (.mnu receiver sel), st)
        | _ => jsPropertyFallback receiver sel args st
termination_by structural f _ _ _ _ _ => f

end

/-! ### Primitive operations (`handlePrimitive`, interpreter.ts:807-927)

In the running system `handlePrimitive` is only ever dispatched through the
`{primitive: tag}` method shape, which no seeded or saved method table
contains (see `findMethod`), so no send reaches it; it is nevertheless the
source's complete primitive table and several claims are about it directly.
It calls back into `sendMessage` for block-invoking primitives, but is not
itself called by the evaluator, so it sits outside the mutual block. -/

/-- Shared shape of the two-number primitives: `checkArgs(['number',
'number'])` then the host arithmetic. -/
def numBinPrim (op : ℚ → ℚ → Val) (receiver : Val) (args : List Val)
    (st : St) : Outcome × St :=
  match checkArgs ["number", "number"] (receiver :: args) with
  | some e => (.err e, st)
  | none =>
    match receiver, args with
    | .num a, .num b :: _ => (.ok (op a b), st)
    | _, _ => (.err (.jsErr "unreachable"), st)

/-- The table `handlePrimitive` (interpreter.ts:838-926), case by case in source
order. -/
def handlePrimitive (f : Nat) (primSel : String) (receiver : Val)
    (args : List Val) (envId : Nat) (st : St) : Outcome × St :=
  match primSel with
  | "primitive:NumberAdd:" => numBinPrim (fun a b => .num (a + b)) receiver args st
  | "primitive:NumberSubtract:" => numBinPrim (fun a b => .num (a - b)) receiver args st
  | "primitive:NumberMultiply:" => numBinPrim (fun a b => .num (a * b)) receiver args st
  | "primitive:NumberDivide:" =>
    match checkArgs ["number", "number"] (receiver :: args) with
    | some e => (.err e, st)
    | none =>
      match receiver, args with
      | .num a, .num b :: _ =>
        if b = 0 then (.err (.sonErr "Division by zero"), st)
        else (.ok (.num (a / b)), st)
      | _, _ => (.err (.jsErr "unreachable"), st)
  | "primitive:NumberLessThan:" =>
      numBinPrim (fun a b => .bool (decide (a < b))) receiver args st
  | "primitive:NumberGreaterThan:" =>
      numBinPrim (fun a b => .bool (decide (b < a))) receiver args st
  | "primitive:NumberLessOrEqual:" =>
      numBinPrim (fun a b => .bool (decide (a ≤ b))) receiver args st
  | "primitive:NumberGreaterOrEqual:" =>
      numBinPrim (fun a b => .bool (decide (b ≤ a))) receiver args st
  | "primitive:NumberEquals:" =>
      numBinPrim (fun a b => .bool (decide (a = b))) receiver args st
  | "primitive:NumberToString:" =>
    match checkArgs ["number"] (receiver :: args) with
    | some e => (.err e, st)
    | none =>
      match receiver with
      | .num a => (.ok (.str (numToString a)), st)
      | _ => (.err (.jsErr "unreachable"), st)
  | "primitive:Equals:" =>
    match checkArgs ["any", "any"] (receiver :: args) with
    | some e => (.err e, st)
    | none =>
      match args with
      | a1 :: _ => (.ok (.bool (jsStrictEq receiver a1)), st)
      | _ => (.err (.jsErr "unreachable"), st)
  | "primitive:NotEquals:" =>
    match checkArgs ["any", "any"] (receiver :: args) with
    | some e => (.err e, st)
    | none =>
      match args with
      | a1 :: _ => (.ok (.bool (!jsStrictEq receiver a1)), st)
      | _ => (.err (.jsErr "unreachable"), st)
  | "primitive:IdentityEquals:" =>
    match checkArgs ["any", "any"] (receiver :: args) with
    | some e => (.err e, st)
    | none =>
      match args with
      | a1 :: _ => (.ok (.bool (jsStrictEq receiver a1)), st)
      | _ => (.err (.jsErr "unreachable"), st)
  | "primitive:IdentityNotEquals:" =>
    match checkArgs ["any", "any"] (receiver :: args) with
    | some e => (.err e, st)
    | none =>
      match args with
      | a1 :: _ => (.ok (.bool (!jsStrictEq receiver a1)), st)
      | _ => (.err (.jsErr "unreachable"), st)
  | "primitive:Class:" =>
    match checkArgs ["any"] (receiver :: args) with
    | some e => (.err e, st)
    | none =>
      match getClassOf f st.heap envId receiver with
      | .ok (some c) => (.ok (.envRef c), st)
      | .ok none => (.ok .null, st)
      | .err e => (.err e, st)
      | .fuelOut => (.fuelOut, st)
  | "primitive:PrintString:" =>
    match checkArgs ["any"] (receiver :: args) with
    | some e => (.err e, st)
    | none =>
      match receiver with
      | .null => (.ok (.str "nil"), st)
      | .sym _ n => (.ok (.str ("#" ++ n)), st)
      | .block _ _ _ _ _ => (.ok (.str "a BlockClosure"), st)
      | v => (.ok (.str (jsToString v)), st)
  | "primitive:BooleanAnd:" =>
    match checkArgs ["boolean", "boolean"] (receiver :: args) with
    | some e => (.err e, st)
    | none =>
      match receiver, args with
      | .bool a, .bool b :: _ => (.ok (.bool (a && b)), st)
      | _, _ => (.err (.jsErr "unreachable"), st)
  | "primitive:BooleanOr:" =>
    match checkArgs ["boolean", "boolean"] (receiver :: args) with
    | some e => (.err e, st)
    | none =>
      match receiver, args with
      | .bool a, .bool b :: _ => (.ok (.bool (a || b)), st)
      | _, _ => (.err (.jsErr "unreachable"), st)
  | "primitive:BooleanNot" =>
    match checkArgs ["boolean"] (receiver :: args) with
    | some e => (.err e, st)
    | none =>
      match receiver with
      | .bool a => (.ok (.bool (!a)), st)
      | _ => (.err (.jsErr "unreachable"), st)
  | "primitive:BooleanIfTrue:" =>
    match checkArgs ["boolean", "block"] (receiver :: args) with
    | some e => (.err e, st)
    | none =>
      match receiver, args with
      | .bool true, b :: _ => sendMessage f b "value" [] envId st
      | _, _ => (.ok .null, st)
  | "primitive:BooleanIfFalse:" =>
    match checkArgs ["boolean", "block"] (receiver :: args) with
    | some e => (.err e, st)
    | none =>
      match receiver, args with
      | .bool false, b :: _ => sendMessage f b "value" [] envId st
      | _, _ => (.ok .null, st)
  | "primitive:BooleanIfTrueIfFalse:" =>
    match checkArgs ["boolean", "block", "block"] (receiver :: args) with
    | some e => (.err e, st)
    | none =>
      match receiver, args with
      | .bool a, b1 :: b2 :: _ =>
          sendMessage f (if a then b1 else b2) "value" [] envId st
      | _, _ => (.err (.jsErr "unreachable"), st)
  | "primitive:BooleanToString:" =>
    match checkArgs ["boolean"] (receiver :: args) with
    | some e => (.err e, st)
    | none =>
      match receiver with
      | .bool a => (.ok (.str (if a then "true" else "false")), st)
      | _ => (.err (.jsErr "unreachable"), st)
  | "primitive:StringConcatenate:" =>
    match checkArgs ["string", "string"] (receiver :: args) with
    | some e => (.err e, st)
    | none =>
      match receiver, args with
      | .str a, .str b :: _ => (.ok (.str (a ++ b)), st)
      | _, _ => (.err (.jsErr "unreachable"), st)
  | "primitive:StringLength" =>
    match checkArgs ["string"] (receiver :: args) with
    | some e => (.err e, st)
    | none =>
      match receiver with
      | .str a => (.ok (.num a.length), st)
      | _ => (.err (.jsErr "unreachable"), st)
  | "primitive:StringEquals:" =>
    match checkArgs ["string", "string"] (receiver :: args) with
    | some e => (.err e, st)
    | none =>
      match receiver, args with
      | .str a, .str b :: _ => (.ok (.bool (decide (a = b))), st)
      | _, _ => (.err (.jsErr "unreachable"), st)
  | "primitive:SymbolToString:" =>
    match checkArgs ["symbol"] (receiver :: args) with
    | some e => (.err e, st)
    | none =>
      match receiver with
      | .sym _ n => (.ok (.str ("#" ++ n)), st)
      | _ => (.err (.jsErr "unreachable"), st)
  | "primitive:SymbolEquals:" =>
    match checkArgs ["symbol", "symbol"] (receiver :: args) with
    | some e => (.err e, st)
    | none =>
      match receiver, args with
      | .sym _ n, .sym _ m :: _ => (.ok (.bool (decide (n = m))), st)
      | _, _ => (.err (.jsErr "unreachable"), st)
  | "primitive:NilIfNil:" =>
    match checkArgs ["null", "block"] (receiver :: args) with
    | some e => (.err e, st)
    | none =>
      match args with
      | b :: _ => sendMessage f b "value" [] envId st
      | _ => (.err (.jsErr "unreachable"), st)
  | "primitive:NilIfNotNil:" =>
    match checkArgs ["null", "block"] (receiver :: args) with
    | some e => (.err e, st)
    | none => (.ok .null, st)
  | "primitive:NilIfNilIfNotNil:" =>
    match checkArgs ["null", "block", "block"] (receiver :: args) with
    | some e => (.err e, st)
    | none =>
      match args with
      | b :: _ => sendMessage f b "value" [] envId st
      | _ => (.err (.jsErr "unreachable"), st)
  | _ => (.err (.sonErr ("Unknown primitive selector: " ++ primSel)), st)

/-! ### Ancestor chains -/

/-- The `k`-fold parent of a heap node: the lexical chain used to state
"nearest ancestor method context" without reference to the interpreter's own
`findHomeContext`. -/
def iterParent (h : List EnvNode) : Nat → Nat → Option Nat
  | 0, i => some i
  | k + 1, i =>
    match h[i]? with
    | some n =>
      match n.parent with
      | some p => iterParent h k p
      | none => none
    | none => none

/-! ### Concrete scenario heaps used by the claim theorems

The classes are `SonEnvironment` nodes exactly as `mergeBaseEnvironment`
creates them (a fresh parentless environment per class definition, methods
installed with `defineMethod`); the root binds each class under its name. -/

/-- An `Object` class environment with an empty method table. -/
def objectClassNode : EnvNode := ⟨[], [], none, false, none⟩

/-- Body of `Number>>outer` (scenario for C1): create a block performing
`^ 42` (the block-literal argument list is the array value bound to
`names`, as `mergeBaseEnvironment` binds server-provided array values
directly), call `callWith:` with it, then `^ 7`. -/
def outerBody : List Val :=
  [ .arr [.str "b:", .arr [.str "$names", .str "=>:", .arr [.arr [.str "^", .num 42]]]],
    .arr [.str "$self", .str "callWith:", .str "$b"],
    .arr [.str "^", .num 7] ]

/-- Body of `Number>>callWith: x` (scenario for C1): invoke the block, then
`^ 1`. -/
def callWithBody : List Val :=
  [ .arr [.str "$x", .str "value"],
    .arr [.str "^", .num 1] ]

/-- The `Number` class environment of the C1 scenario. -/
def numberClassNodeC1 : EnvNode :=
  ⟨[], [("outer", ⟨[], .arr outerBody⟩), ("callWith:", ⟨["x"], .arr callWithBody⟩)],
    none, false, none⟩

/-- Root environment of the C1 scenario: `Object` at node 1, `Number` at
node 2, and `names` bound to an (empty) array value. -/
def rootNodeC1 : EnvNode :=
  ⟨[("Object", .envRef 1), ("Number", .envRef 2), ("names", .arr [])],
    [], none, false, none⟩

/-- Initial machine state of the C1 scenario. -/
def stC1 : St := ⟨[rootNodeC1, objectClassNode, numberClassNodeC1], 100⟩

/-- A minimal direct configuration for the C1 interception: node 3 is an
(outer) method activation; `blockB` is a block created in it, performing
`^ 42` toward it. -/
def homeCtxNodeB : EnvNode := ⟨[], [], some 0, true, some (.num 9)⟩

/-- A `Number` class for the direct C1 configuration: `runIt: blk` invokes the
block and then answers `^ 1`. -/
def numberClassNodeB : EnvNode :=
  ⟨[], [("runIt:", ⟨["blk"], .arr [.arr [.str "$blk", .str "value"], .arr [.str "^", .num 1]]⟩)],
    none, false, none⟩

/-- Root of the direct C1 configuration. -/
def rootNodeB : EnvNode :=
  ⟨[("Object", .envRef 1), ("Number", .envRef 2)], [], none, false, none⟩

/-- State of the direct C1 configuration. -/
def stB : St := ⟨[rootNodeB, objectClassNode, numberClassNodeB, homeCtxNodeB], 100⟩

/-- A block closure whose home context is node 3 of `stB` and whose body is
`[["^", 42]]`. -/
def blockB : Val := .block 50 [] [.arr [.str "^", .num 42]] 3 (some 3)

/-- The `Object` class of the C2 scenario: it understands `class` (the seeded
`Object` table carries it, db.ts:133). -/
def objectClassNodeC2 : EnvNode :=
  ⟨[], [("class", ⟨[], .arr [.str "primitive:Class:", .str "$self"]⟩)], none, false, none⟩

/-- The `Number` class of the C2 scenario: no local `class` method, so lookup
must fall back to `Object`. -/
def numberClassNodeC2 : EnvNode := ⟨[], [], none, false, none⟩

/-- Root of the C2 scenario. -/
def rootNodeC2 : EnvNode :=
  ⟨[("Object", .envRef 1), ("Number", .envRef 2)], [], none, false, none⟩

/-- State of the C2 scenario. -/
def stC2 : St := ⟨[rootNodeC2, objectClassNodeC2, numberClassNodeC2], 100⟩

/-! ### Server persistence model (`server/api/persistenceHandlers.ts`)

JSON request/response payloads are modelled by `JVal`; the SQLite tables
`son_classes (id, name unique)` and `son_methods (id, class_id, selector,
arguments_json, body_json, unique(class_id, selector))` by lists of rows.
`randomUUID` is modelled by a fresh-id counter drawn only when a row is
actually inserted (the discarded UUIDs of conflicting inserts are
unobservable).  `JSON.stringify` of an acyclic payload always succeeds, so
the stored JSON is kept structured. -/

/-- A JSON value as received by the HTTP handlers. -/
inductive JVal where
  | jnum (q : ℚ)
  | jstr (s : String)
  | jbool (b : Bool)
  | jnull
  | jarr (xs : List JVal)
  | jobj (fields : List (String × JVal))

/-- Field access on a parsed JSON body (destructuring in the handler);
non-objects have no fields. -/
def getField (data : JVal) (k : String) : Option JVal :=
  match data with
  | .jobj fields => assocGet k fields
  | _ => none

/-- JS falsiness of a JSON value (the `!data` test). -/
def jsFalsy : JVal → Bool
  | .jnull => true
  | .jnum q => decide (q = 0)
  | .jstr s => decide (s = "")
  | .jbool b => !b
  | _ => false

/-- JS `typeof data === 'object'` for a JSON value (arrays and `null`
included). -/
def isJsObjectShaped : JVal → Bool
  | .jobj _ => true
  | .jarr _ => true
  | .jnull => true
  | _ => false

/-- A row of `son_classes`. -/
structure DBClass where
  id : Nat
  name : String

/-- A row of `son_methods`. -/
structure DBMethod where
  id : Nat
  classId : Nat
  selector : String
  argumentsJson : JVal
  bodyJson : JVal

/-- The persistence store. -/
structure DB where
  classes : List DBClass
  methods : List DBMethod
  nextId : Nat

/-- The query `SELECT id FROM son_classes WHERE name = ?` — first row with exactly the
given name (no trimming on lookup). -/
def findClass : List DBClass → String → Option DBClass
  | [], _ => none
  | c :: rest, n => if c.name = n then some c else findClass rest n

/-- The query `SELECT id FROM son_methods WHERE class_id = ? AND selector = ?`. -/
def findMethodRow : List DBMethod → Nat → String → Option DBMethod
  | [], _, _ => none
  | m :: rest, cid, sel =>
    if m.classId = cid ∧ m.selector = sel then some m
    else findMethodRow rest cid sel

/-- The upsert `ON CONFLICT(class_id, selector) DO UPDATE SET arguments_json = ...,
body_json = ...` — the conflicting row keeps its id, its JSON columns are
replaced. -/
def updateMethodRow : List DBMethod → Nat → String → JVal → JVal →
    List DBMethod
  | [], _, _, _, _ => []
  | m :: rest, cid, sel, aj, bj =>
    if m.classId = cid ∧ m.selector = sel then
      { m with argumentsJson := aj, bodyJson := bj } :: rest
    else m :: updateMethodRow rest cid sel aj bj

/-- The transaction of `saveMethod` (persistenceHandlers.ts:256-280), with
the class and selector names already trimmed: ensure the class row exists
(insert keeps existing rows: `ON CONFLICT(name) DO NOTHING`), read its id,
check whether the `(class_id, selector)` method row exists, and upsert;
answer 201 for an insert, 200 for an update, paired with the new store. -/
def saveCore (db : DB) (cn sel : String) (args body : List JVal) : Nat × DB :=
  let step :=
    match findClass db.classes cn with
    | some c => (c.id, db)
    | none =>
        (db.nextId,
         { db with
             classes := db.classes ++ [DBClass.mk db.nextId cn],
             nextId := db.nextId + 1 })
  match findMethodRow step.2.methods step.1 sel with
  | some _ =>
      (200,
       { step.2 with
           methods :=
             updateMethodRow step.2.methods step.1 sel (.jarr args) (.jarr body) })
  | none =>
      (201,
       { step.2 with
           methods :=
             step.2.methods ++
               [DBMethod.mk step.2.nextId step.1 sel (.jarr args) (.jarr body)],
           nextId := step.2.nextId + 1 })

/-- The handler `saveMethod` (persistenceHandlers.ts:208-299): validate the payload
(object body; `className`/`selector` strings that are non-empty after
`trim()`; `arguments` and `body` arrays), then in one transaction ensure the
class row exists under the *trimmed* name, and insert or update the method
row under the class id and *trimmed* selector; answer 201 when a new method
row was inserted, 200 when an existing one was updated, 400 on validation
failure.  (The 500 branch covers host database faults, which the model's
total store cannot raise.) -/
def saveMethod (db : DB) (data : JVal) : Nat × DB :=
  if jsFalsy data || !isJsObjectShaped data then (400, db)
  else
    match getField data "className" with
    | some (.jstr className) =>
      if jsTrim className = "" then (400, db)
      else
        match getField data "selector" with
        | some (.jstr selector) =>
          if jsTrim selector = "" then (400, db)
          else
            match getField data "arguments" with
            | some (.jarr args) =>
              match getField data "body" with
              | some (.jarr body) =>
                  saveCore db (jsTrim className) (jsTrim selector) args body
              | _ => (400, db)
            | _ => (400, db)
        | _ => (400, db)
    | _ => (400, db)

/-- Lexicographic comparison on character lists (the model of SQL string
ordering; kernel-computable unlike the core `String` order). -/
def charListLe : List Char → List Char → Bool
  | [], _ => true
  | _ :: _, [] => false
  | a :: as, b :: bs =>
    if a = b then charListLe as bs else decide (a.toNat < b.toNat)

/-- Insertion into a sorted list of strings (for `ORDER BY selector`). -/
def insertSorted (s : String) : List String → List String
  | [] => [s]
  | t :: rest => if charListLe s.data t.data then s :: t :: rest else t :: insertSorted s rest

/-- Sort a list of strings (the model of SQL `ORDER BY`). -/
def sortStrings : List String → List String
  | [] => []
  | s :: rest => insertSorted s (sortStrings rest)

/-- Selectors of all method rows of a class. -/
def selectorsOf (ms : List DBMethod) (cid : Nat) : List String :=
  (ms.filter (fun m => m.classId = cid)).map (fun m => m.selector)

/-- The handler `getMethods` (persistenceHandlers.ts:83-116): the class name is matched
verbatim (`WHERE name = ?`, no trimming); 404 when absent, otherwise 200
with the class's selectors sorted. -/
def getMethods (db : DB) (className : String) : Nat × List String :=
  match findClass db.classes className with
  | none => (404, [])
  | some c => (200, sortStrings (selectorsOf db.methods c.id))

/-- Validity of a save payload: exactly the checks `saveMethod` applies
(strings non-empty after trimming, `arguments` and `body` arrays). -/
def SavePayloadAccepted (data : JVal) : Prop :=
  (∃ cn, getField data "className" = some (.jstr cn) ∧ jsTrim cn ≠ "") ∧
  (∃ sel, getField data "selector" = some (.jstr sel) ∧ jsTrim sel ≠ "") ∧
  (∃ xs, getField data "arguments" = some (.jarr xs)) ∧
  (∃ bs, getField data "body" = some (.jarr bs))

/-- Whether the `(class, selector)` entry a payload addresses already exists
(the `checkExisting` read that decides 200 vs 201), keyed by the trimmed
names. -/
def saveTargetExists (db : DB) (data : JVal) : Bool :=
  match getField data "className", getField data "selector" with
  | some (.jstr cn), some (.jstr sel) =>
    match findClass db.classes (jsTrim cn) with
    | some c => (findMethodRow db.methods c.id (jsTrim sel)).isSome
    | none => false
  | _, _ => false

/-- Id-freshness invariant of the store: every stored id is below the
counter (true of every store the handlers build from an empty database). -/
def DBWF (db : DB) : Prop :=
  (∀ c ∈ db.classes, c.id < db.nextId) ∧ (∀ m ∈ db.methods, m.classId < db.nextId)

/-- The C3 counterexample payload: `className`/`selector` are non-empty
strings, `arguments` is an array of strings, `body` is the number 42 — a
perfectly good SON `Value`, but not an array. -/
def payloadBodyNotArray : JVal :=
  .jobj [("className", .jstr "Foo"), ("selector", .jstr "bar"),
         ("arguments", .jarr []), ("body", .jnum 42)]

/-! ### Witness configurations for the universally quantified claims -/

/-- Root binding `Object` and `Number` classes (witness scenarios). -/
def rootNodeW : EnvNode :=
  ⟨[("Object", .envRef 1), ("Number", .envRef 2)], [], none, false, none⟩

/-- A `Number` class with `bump` answering `^ 99` (cascade witness: an inner
message whose result differs from the receiver). -/
def numberClassNodeC5 : EnvNode :=
  ⟨[], [("bump", ⟨[], .arr [.arr [.str "^", .num 99]]⟩)], none, false, none⟩

/-- Cascade-witness state. -/
def stW5 : St := ⟨[rootNodeW, objectClassNode, numberClassNodeC5], 0⟩

/-- Cascade-witness receiver expression: the assignment `["n:", 5]` — an
effectful expression whose value is 5. -/
def recvW5 : Val := .arr [.str "n:", .num 5]

/-- Cascade-witness message `[\"bump\"]`. -/
def msgW5 : Val := .arr [.str "bump"]

/-- State after evaluating the witness receiver once. -/
def stW5a : St := (evaluate 40 recvW5 0 stW5).2

/-- State after the witness cascade loop. -/
def stW5b : St := (runCascade 40 (.num 5) [msgW5] 0 stW5a).2

/-- A `Number` class with `mm`, a method whose body's last statement is 42 and
which never executes `^` (implicit-self-return witness). -/
def numberClassNodeC6 : EnvNode :=
  ⟨[], [("mm", ⟨[], .arr [.num 42]⟩)], none, false, none⟩

/-- Implicit-self-return witness state. -/
def stW6 : St := ⟨[rootNodeW, objectClassNode, numberClassNodeC6], 0⟩

/-- The `mm` implementation. -/
def implW6 : MethodImpl := ⟨[], .arr [.num 42]⟩

/-- State after running `mm`'s body in its activation. -/
def stW6b : St :=
  (methodBodyEval 20 implW6.body (methodEntry (.num 5) implW6 [] 0 stW6).1
      (methodEntry (.num 5) implW6 [] 0 stW6).2).2

/-- Return-witness heap: node 0 a plain root, node 1 a method context over
it, node 2 a plain (block-style) child of node 1. -/
def heapW7 : List EnvNode :=
  [⟨[], [], none, false, none⟩,
   ⟨[], [], some 0, true, some (.num 1)⟩,
   ⟨[], [], some 1, false, none⟩]

/-- Return-witness state. -/
def stW7 : St := ⟨heapW7, 0⟩

/-- Environment-witness heap: the root binds `x := 1` and `y := 7`; its
child binds `x := 2`. -/
def heapW9 : List EnvNode :=
  [⟨[("x", .num 1), ("y", .num 7)], [], none, false, none⟩,
   ⟨[("x", .num 2)], [], some 0, false, none⟩]

/-- Save payload whose names carry surrounding whitespace. -/
def payloadTrimA : JVal :=
  .jobj [("className", .jstr " Foo "), ("selector", .jstr " bar "),
         ("arguments", .jarr []), ("body", .jarr [.jnum 1])]

/-- Save payload with the same names already trimmed. -/
def payloadTrimB : JVal :=
  .jobj [("className", .jstr "Foo"), ("selector", .jstr "bar"),
         ("arguments", .jarr []), ("body", .jarr [.jnum 2])]

/-- Store after saving the whitespace-carrying payload into an empty
database. -/
def dbAfterA : DB := (saveMethod ⟨[], [], 0⟩ payloadTrimA).2

/-- A fully valid save payload (validation witness). -/
def payloadValid : JVal :=
  .jobj [("className", .jstr "Foo"), ("selector", .jstr "bar:"),
         ("arguments", .jarr [.jstr "x"]), ("body", .jarr [])]

/-! ## Claim theorems -/

/-- C8: for all numbers `a` and `b`, the divide primitive
(`primitive:NumberDivide:`) applied to receiver `a` and argument `b` raises
`SonError` exactly when `b` is zero, and otherwise deterministically returns
the quotient `a / b` (numbers modelled as rationals; interpreter.ts:843-846),
leaving the machine state untouched. -/
theorem c8_number_divide (f : Nat) (a b : ℚ) (envId : Nat) (st : St) :
    handlePrimitive f "primitive:NumberDivide:" (.num a) [.num b] envId st =
      (if b = 0 then (.err (.sonErr "Division by zero"), st)
       else (.ok (.num (a / b)), st)) := rfl

/-- C4 counterexample: two symbol objects carrying the same `#` name `foo`
are *not* indistinguishable: identity equality (`primitive:IdentityEquals:`,
JS `===`) answers `true` for the first symbol against itself but `false`
for the second symbol against the first, and generic equality
(`primitive:Equals:`) does the same — so a message send separates two
symbols with the same name. -/
theorem c4_counterexample_symbol_identity :
    handlePrimitive 0 "primitive:IdentityEquals:" (.sym 0 "foo") [.sym 0 "foo"] 0 ⟨[], 0⟩
        = (.ok (.bool true), ⟨[], 0⟩) ∧
    handlePrimitive 0 "primitive:IdentityEquals:" (.sym 1 "foo") [.sym 0 "foo"] 0 ⟨[], 0⟩
        = (.ok (.bool false), ⟨[], 0⟩) ∧
    handlePrimitive 0 "primitive:Equals:" (.sym 0 "foo") [.sym 0 "foo"] 0 ⟨[], 0⟩
        = (.ok (.bool true), ⟨[], 0⟩) ∧
    handlePrimitive 0 "primitive:Equals:" (.sym 1 "foo") [.sym 0 "foo"] 0 ⟨[], 0⟩
        = (.ok (.bool false), ⟨[], 0⟩) ∧
    Outcome.ok (Val.bool true) ≠ Outcome.ok (Val.bool false) :=
  ⟨rfl, rfl, rfl, rfl, by simp⟩

/-- C4 amended: symbols compare by name only under the symbol primitives —
`primitive:SymbolEquals:` answers name equality and
`primitive:SymbolToString:` depends only on the name — while the generic
equality and identity-equality primitives compare symbol objects by JS
reference identity, so they distinguish two distinct symbol objects that
carry equal names (interpreter.ts:857-869 and 911-913; symbols are not
interned, interpreter.ts:393-395). -/
theorem c4_symbol_comparison_amended (f i j : Nat) (n m : String)
    (envId : Nat) (st : St) :
    handlePrimitive f "primitive:SymbolEquals:" (.sym i n) [.sym j m] envId st
        = (.ok (.bool (decide (n = m))), st) ∧
    handlePrimitive f "primitive:SymbolToString:" (.sym i n) [] envId st
        = (.ok (.str ("#" ++ n)), st) ∧
    handlePrimitive f "primitive:Equals:" (.sym i n) [.sym j m] envId st
        = (.ok (.bool (decide (i = j))), st) ∧
    handlePrimitive f "primitive:IdentityEquals:" (.sym i n) [.sym j m] envId st
        = (.ok (.bool (decide (i = j))), st) :=
  ⟨rfl, rfl, rfl, rfl⟩

/-- C2 (code bug): with `Number` lacking `class` and `Object` providing it,
the send `[3, "class"]` does not consult `Object`'s class table — the
fallback guard at interpreter.ts:1010 reads the undeclared identifier
`className` and the evaluation dies with a JS `ReferenceError` instead of
dispatching or raising `MessageNotUnderstood`. -/
theorem c2_object_fallback_reference_error :
    evaluate 60 (.arr [.num 3, .str "class"]) 0 stC2 =
        (.err (.refErr "className"), stC2) ∧
    (lookupMethodLocally stC2.heap 1 "class").isSome = true ∧
    lookupMethodLocally stC2.heap 2 "class" = none :=
  ⟨rfl, rfl, rfl⟩

/-- C1 (code bug): a `NonLocalReturn` is caught by the innermost method
activation it crosses, regardless of its target context.  First conjunct:
in the `stC1` image, `Number>>outer` creates a block performing `^ 42`
(whose home context is `outer`'s activation, node 3), passes it to
`Number>>callWith:`, and ends with `^ 7`; the whole send answers 7 because
`callWith:`'s activation (node 4, not the signal's target) catches the
non-local return at interpreter.ts:1064-1072 — under the claim the signal
would re-raise past `callWith:` and `outer` would answer 42.  Second
conjunct: directly, an activation of `Number>>runIt:` (node 4 of `stB`)
returns the value of a non-local return whose recorded target is node 3. -/
theorem c1_nonlocal_return_intercepted_by_inner_activation :
    (evaluate 60 (.arr [.num 5, .str "outer"]) 0 stC1).1 = .ok (.num 7) ∧
    (sendMessage 40 (.num 5) "runIt:" [blockB] 0 stB).1 = .ok (.num 42) :=
  ⟨rfl, rfl⟩

/-- C3 counterexample: a payload whose `className` and `selector` are
non-empty strings, whose `argNames` is a sequence of strings, and whose
`body` is a `Value` (the number 42) is rejected with 400, although the claim
requires that save to succeed. -/
theorem c3_counterexample_body_not_array :
    (saveMethod ⟨[], [], 0⟩ payloadBodyNotArray).1 = 400 ∧ (400 : Nat) ≠ 201 ∧
      (400 : Nat) ≠ 200 :=
  ⟨rfl, by simp, by simp⟩

/-! ### Supporting lemmas for the cascade, return, environment and
persistence claims -/

theorem evalArgs_thrown_not_ok :
    ∀ (f : Nat) (ns : List Val) (envId : Nat) (st : St) (o : Outcome) (st' : St),
      evalArgs f ns envId st = (.thrown o, st') → ∀ w, o ≠ .ok w := by
  intro f
  induction f with
  | zero =>
    intro ns envId st o st' h w hc
    subst hc
    simp [evalArgs] at h
  | succ f ih =>
    intro ns envId st o st' h w hc
    subst hc
    cases ns with
    | nil => simp [evalArgs] at h
    | cons n rest =>
      rcases hev : evaluate f n envId st with ⟨o1, st1⟩
      cases o1 <;> simp only [evalArgs, hev] at h
      case ok v =>
        rcases hargs : evalArgs f rest envId st1 with ⟨ao, st2⟩
        cases ao <;> simp only [hargs] at h
        case ok vs => simp at h
        case thrown o2 =>
          simp at h
          exact absurd h.1 (ih rest envId st1 o2 st2 hargs w)
      case localReturn v => simp at h
      case nonLocalReturn v t => simp at h
      case err e => simp at h
      case fuelOut => simp at h

theorem runCascade_result_is_receiver :
    ∀ (f : Nat) (r : Val) (msgs : List Val) (envId : Nat) (st : St) (v : Val) (st' : St),
      runCascade f r msgs envId st = (.ok v, st') → v = r := by
  intro f
  induction f with
  | zero =>
    intro r msgs envId st v st' h
    simp [runCascade] at h
  | succ f ih =>
    intro r msgs envId st v st' h
    cases msgs with
    | nil =>
      simp [runCascade] at h
      exact h.1.symm
    | cons msg more =>
      cases msg <;> simp only [runCascade] at h <;> try simp at h
      case arr elems =>
        cases elems with
        | nil => simp at h
        | cons selNode argNodes =>
          cases selNode <;> try simp at h
          case str msgSel =>
            rcases hargs : evalArgs f argNodes envId st with ⟨ao, st1⟩
            cases ao <;> simp only [hargs] at h
            case thrown o2 =>
              simp at h
              exact absurd h.1
                (evalArgs_thrown_not_ok f argNodes envId st o2 st1 hargs v)
            case ok margs =>
              rcases hsend : sendMessage f r msgSel margs envId st1 with ⟨so, st2⟩
              cases so <;> simp only [hsend] at h
              case ok w => exact ih r more envId st2 v st' h
              case localReturn w => simp at h
              case nonLocalReturn w t => simp at h
              case err e => simp at h
              case fuelOut => simp at h

theorem iterParent_step (h : List EnvNode) (m i p : Nat) (nd : EnvNode)
    (hi : h[i]? = some nd) (hp : nd.parent = some p) :
    iterParent h (m + 1) i = iterParent h m p := by
  simp [iterParent, hi, hp]

theorem findHome_of_nearest :
    ∀ (n fuel : Nat) (h : List EnvNode) (i t : Nat),
      n + 1 ≤ fuel →
      iterParent h n i = some t →
      isMethodContextAt h t = true →
      (∀ m, m < n → ∀ j, iterParent h m i = some j →
        isMethodContextAt h j = false) →
      findHomeContext fuel h i = some t := by
  intro n
  induction n with
  | zero =>
    intro fuel h i t hfuel hit hmct _
    have hti : t = i := by simpa [iterParent] using hit.symm
    subst hti
    obtain ⟨f, rfl⟩ : ∃ f, fuel = f + 1 := ⟨fuel - 1, by omega⟩
    cases hi : h[t]? with
    | none => simp [isMethodContextAt, hi] at hmct
    | some nd =>
      have : nd.isMethodContext = true := by
        simpa [isMethodContextAt, hi] using hmct
      simp [findHomeContext, hi, this]
  | succ n ih =>
    intro fuel h i t hfuel hit hmct hbetween
    obtain ⟨f, rfl⟩ : ∃ f, fuel = f + 1 := ⟨fuel - 1, by omega⟩
    cases hi : h[i]? with
    | none => simp [iterParent, hi] at hit
    | some nd =>
      cases hp : nd.parent with
      | none => simp [iterParent, hi, hp] at hit
      | some p =>
        have hmi : nd.isMethodContext = false := by
          have := hbetween 0 (by omega) i (by simp [iterParent])
          simpa [isMethodContextAt, hi] using this
        have hit' : iterParent h n p = some t := by
          rw [iterParent_step h n i p nd hi hp] at hit
          exact hit
        have hb' : ∀ m, m < n → ∀ j, iterParent h m p = some j →
            isMethodContextAt h j = false := by
          intro m hm j hj
          refine hbetween (m + 1) (by omega) j ?_
          rw [iterParent_step h m i p nd hi hp]
          exact hj
        rw [findHomeContext]
        simp only [hi, hmi, hp]
        exact ih f h p t (by omega) hit' hmct hb'

theorem findHome_none_of_no_mc :
    ∀ (fuel : Nat) (h : List EnvNode) (i : Nat),
      (∀ m j, iterParent h m i = some j → isMethodContextAt h j = false) →
      findHomeContext fuel h i = none := by
  intro fuel
  induction fuel with
  | zero => intro h i _; rfl
  | succ f ih =>
    intro h i hnone
    cases hi : h[i]? with
    | none => simp [findHomeContext, hi]
    | some nd =>
      have hmi : nd.isMethodContext = false := by
        have := hnone 0 i (by simp [iterParent])
        simpa [isMethodContextAt, hi] using this
      cases hp : nd.parent with
      | none => simp [findHomeContext, hi, hmi, hp]
      | some p =>
        rw [findHomeContext]
        simp only [hi, hmi, hp]
        simp only [Bool.false_eq_true, if_false]
        exact ih h p (fun m j hj => hnone (m + 1) j (by
          rw [iterParent_step h m i p nd hi hp]; exact hj))

theorem envSet_preserves_other (h : List EnvNode) (i : Nat) (x : String)
    (v : Val) (j : Nat) (hne : j ≠ i) : (envSet h i x v)[j]? = h[j]? := by
  unfold envSet
  cases h[i]? with
  | none => rfl
  | some nd => exact List.getElem?_set_ne (fun hc => hne hc.symm)

theorem findMethodRow_none_of_fresh :
    ∀ (ms : List DBMethod) (cid : Nat) (sel : String),
      (∀ m ∈ ms, m.classId < cid) → findMethodRow ms cid sel = none := by
  intro ms cid sel h
  induction ms with
  | nil => rfl
  | cons m rest ih =>
    have hm := h m (by simp)
    rw [findMethodRow, if_neg]
    · exact ih (fun m' hm' => h m' (by simp [hm']))
    · rintro ⟨hc, _⟩
      omega

/-- C5: a cascade `[recv, "cascade:", msgs]` evaluates its receiver
expression exactly once (the receiver's single evaluation produces `st1`,
from which the message loop continues), sends each message in order to that
one receiver value discarding the results, and answers the receiver value
`r` — whatever value `v` the message loop's own bookkeeping carries is `r`
itself, and the empty message list is covered by `runCascade`'s base case
(interpreter.ts:1342-1360).  The two `valIsStr` hypotheses say the receiver
expression is not itself the reserved head `^` or `define:args:body:`, which
the evaluator tests first. -/
theorem c5_cascade_identity
    (f : Nat) (recv : Val) (msgs : List Val) (envId : Nat)
    (st st1 st2 : St) (r v : Val)
    (h1 : valIsStr recv "^" = false)
    (h2 : valIsStr recv "define:args:body:" = false)
    (hr : evaluate f recv envId st = (.ok r, st1))
    (hc : runCascade f r msgs envId st1 = (.ok v, st2)) :
    evaluate (f + 1) (.arr [recv, .str "cascade:", .arr msgs]) envId st =
      (.ok r, st2) ∧ v = r := by
  have hv : v = r := runCascade_result_is_receiver f r msgs envId st1 v st2 hc
  subst hv
  refine ⟨?_, rfl⟩
  simp only [evaluate, h1, h2, Bool.false_eq_true, if_false]
  cases hA : assignTarget recv with
  | none => simp only [hr, hc]
  | some nm => simp only [hr, hc]

/-- C5 witness: the effectful receiver `["n:", 5]` (value 5) cascaded with
the message `["bump"]`, whose send answers 99; the cascade still answers 5
and reaches exactly the state of one receiver evaluation followed by the
message sends. -/
theorem c5_cascade_identity_witness :
    (evaluate 41 (.arr [recvW5, .str "cascade:", .arr [msgW5]]) 0 stW5 =
        (.ok (.num 5), stW5b) ∧ (Val.num 5) = .num 5) ∧
    (sendMessage 40 (.num 5) "bump" [] 0 stW5a).1 = .ok (.num 99) :=
  ⟨c5_cascade_identity 40 recvW5 [msgW5] 0 stW5 stW5a stW5b (.num 5) (.num 5)
      rfl rfl rfl rfl, rfl⟩

/-- C6: a SON-defined method invocation whose body runs to completion
without a return signal answers the receiver (implicit `self` return), not
the body's value `v` (interpreter.ts:1050-1062). -/
theorem c6_implicit_self_return
    (f : Nat) (receiver : Val) (sel : String) (args : List Val) (envId : Nat)
    (st st3 : St) (cls : Option Nat) (impl : MethodImpl) (v : Val)
    (hc : getClassOf (f + 1) st.heap envId receiver = .ok cls)
    (hm : findMethod st.heap envId cls sel = .ok (some impl))
    (ha : impl.argNames.length = args.length)
    (hb : methodBodyEval f impl.body (methodEntry receiver impl args envId st).1
            (methodEntry receiver impl args envId st).2 = (.ok v, st3)) :
    sendMessage (f + 2) receiver sel args envId st = (.ok receiver, st3) := by
  simp only [sendMessage, hc, hm, runMethodImpl, ha, ne_eq, not_true_eq_false,
    if_false, hb, ite_false]

/-- C6 witness: `Number>>mm` has body `[42]` and no `^`; sending `mm` to 5
answers 5, not the body value 42. -/
theorem c6_implicit_self_return_witness :
    sendMessage 22 (.num 5) "mm" [] 0 stW6 = (.ok (.num 5), stW6b) ∧
    (methodBodyEval 20 implW6.body (methodEntry (.num 5) implW6 [] 0 stW6).1
        (methodEntry (.num 5) implW6 [] 0 stW6).2).1 = .ok (.num 42) :=
  ⟨c6_implicit_self_return 20 (.num 5) "mm" [] 0 stW6 stW6b (some 2) implW6
      (.num 42) rfl rfl rfl rfl, rfl⟩

/-- C7: evaluating `["^", e]` (with `e` evaluating to `v`) raises
`LocalReturn v` when the current environment is a method context; when it is
not but its lexical chain reaches a method context — the `n`-th ancestor
`t`, every strictly nearer ancestor not being one — it raises
`NonLocalReturn v` targeting exactly that nearest ancestor; and when no
method context exists anywhere on the chain it raises `SonError`
(interpreter.ts:1255-1277). -/
theorem c7_return_semantics
    (f : Nat) (e : Val) (envId : Nat) (st st' : St) (v : Val)
    (hv : evaluate f e envId st = (.ok v, st')) :
    (isMethodContextAt st'.heap envId = true →
      evaluate (f + 1) (.arr [.str "^", e]) envId st = (.localReturn v, st')) ∧
    (∀ n t, isMethodContextAt st'.heap envId = false →
      n + 1 ≤ st'.heap.length + 1 →
      iterParent st'.heap n envId = some t →
      isMethodContextAt st'.heap t = true →
      (∀ m, m < n → ∀ j, iterParent st'.heap m envId = some j →
        isMethodContextAt st'.heap j = false) →
      evaluate (f + 1) (.arr [.str "^", e]) envId st = (.nonLocalReturn v t, st')) ∧
    ((∀ m j, iterParent st'.heap m envId = some j →
        isMethodContextAt st'.heap j = false) →
      evaluate (f + 1) (.arr [.str "^", e]) envId st =
        (.err (.sonErr "Cannot return from outside a method context"), st')) := by
  have hval : valIsStr (.str "^") "^" = true := rfl
  refine ⟨?_, ?_, ?_⟩
  · intro hmc
    simp only [evaluate, hval, if_true, hv, hmc, Bool.not_true, Bool.and_false,
      Bool.false_eq_true, if_false, if_true]
  · intro n t hmc hfuel hit hmct hbetween
    have hfh : findHomeContext (st'.heap.length + 1) st'.heap envId = some t :=
      findHome_of_nearest n (st'.heap.length + 1) st'.heap envId t hfuel hit
        hmct hbetween
    simp only [evaluate, hval, if_true, hv, hfh, hmc, Option.isNone_some,
      Bool.false_and, Bool.false_eq_true, if_false]
  · intro hnone
    have hmc : isMethodContextAt st'.heap envId = false :=
      hnone 0 envId (by simp [iterParent])
    have hfh : findHomeContext (st'.heap.length + 1) st'.heap envId = none :=
      findHome_none_of_no_mc (st'.heap.length + 1) st'.heap envId hnone
    simp only [evaluate, hval, if_true, hv, hfh, hmc, Option.isNone_none,
      Bool.not_false, Bool.and_self, if_true]

/-- C7 witness: in the heap `heapW7` (node 1 a method context, node 2 a
plain child of it, node 0 a bare root), `["^", 42]` raises a local return at
node 1, a non-local return targeting node 1 at node 2, and a `SonError` at
node 0. -/
theorem c7_return_semantics_witness :
    evaluate 2 (.arr [.str "^", .num 42]) 1 stW7 = (.localReturn (.num 42), stW7) ∧
    evaluate 2 (.arr [.str "^", .num 42]) 2 stW7 = (.nonLocalReturn (.num 42) 1, stW7) ∧
    evaluate 2 (.arr [.str "^", .num 42]) 0 stW7 =
      (.err (.sonErr "Cannot return from outside a method context"), stW7) := by
  refine ⟨?_, ?_, ?_⟩
  · exact (c7_return_semantics 1 (.num 42) 1 stW7 stW7 (.num 42) rfl).1 rfl
  · refine (c7_return_semantics 1 (.num 42) 2 stW7 stW7 (.num 42) rfl).2.1 1 1
      rfl (by decide) rfl rfl ?_
    intro m hm j hj
    have hm0 : m = 0 := by omega
    subst hm0
    have : j = 2 := by simpa [iterParent] using hj.symm
    subst this
    rfl
  · refine (c7_return_semantics 1 (.num 42) 0 stW7 stW7 (.num 42) rfl).2.2 ?_
    intro m j hj
    cases m with
    | zero =>
      have : j = 0 := by simpa [iterParent] using hj.symm
      subst this
      rfl
    | succ m =>
      simp [iterParent, stW7, heapW7] at hj

/-- C9: environment access semantics (environment.ts:69-92).  `get` answers
the local binding when one exists; otherwise it delegates to the parent, and
raises `VariableNotFound` at an unbound root, mutating nothing (a variable
read leaves the machine state untouched); `set` writes only the local scope
— every other heap node is unchanged — so assigning in a child scope leaves
every lookup through the parent, in particular of the same name, exactly as
before. -/
theorem c9_env_get_set :
    (∀ (f : Nat) (h : List EnvNode) (i : Nat) (x : String) (nd : EnvNode) (v : Val),
      h[i]? = some nd → assocGet x nd.vars = some v →
      envGet (f + 1) h i x = .ok v) ∧
    (∀ (f : Nat) (h : List EnvNode) (i : Nat) (x : String) (nd : EnvNode) (p : Nat),
      h[i]? = some nd → assocGet x nd.vars = none → nd.parent = some p →
      envGet (f + 1) h i x = envGet f h p x) ∧
    (∀ (f : Nat) (h : List EnvNode) (i : Nat) (x : String) (nd : EnvNode),
      h[i]? = some nd → assocGet x nd.vars = none → nd.parent = none →
      envGet (f + 1) h i x = .error (.varNotFound x)) ∧
    (∀ (f : Nat) (s : String) (envId : Nat) (st : St) (v : Val),
      evalVarString st.heap envId s = .ok v →
      evaluate (f + 1) (.str s) envId st = (.ok v, st)) ∧
    (∀ (h : List EnvNode) (i : Nat) (x : String) (v : Val) (j : Nat),
      j ≠ i → (envSet h i x v)[j]? = h[j]?) ∧
    (∀ (fuel : Nat) (h : List EnvNode) (i : Nat) (x : String) (v : Val)
        (p : Nat) (y : String),
      (∀ (a : Nat) (nd : EnvNode), h[a]? = some nd →
        ∀ (q : Nat), nd.parent = some q → q < a) →
      p < i →
      envGet fuel (envSet h i x v) p y = envGet fuel h p y) := by
  refine ⟨?_, ?_, ?_, ?_, ?_, ?_⟩
  · intro f h i x nd v hi hv
    simp [envGet, hi, hv]
  · intro f h i x nd p hi hv hp
    simp [envGet, hi, hv, hp]
  · intro f h i x nd hi hv hp
    simp [envGet, hi, hv, hp]
  · intro f s envId st v hv
    simp [evaluate, hv]
  · exact envSet_preserves_other
  · intro fuel
    induction fuel with
    | zero => intro h i x v p y _ _; rfl
    | succ f ih =>
      intro h i x v p y hwf hpi
      rw [envGet, envGet]
      rw [envSet_preserves_other h i x v p (by omega)]
      cases hp : h[p]? with
      | none => rfl
      | some nd =>
        simp only
        cases hv2 : assocGet y nd.vars with
        | some w => simp [hv2]
        | none =>
          simp only [hv2]
          cases hq : nd.parent with
          | none => simp [hq]
          | some q =>
            simp only [hq]
            exact ih h i x v q y hwf (by
              have := hwf p nd hp q hq
              omega)

/-- C9 witness: in `heapW9` (root binds `x:=1`, `y:=7`; child binds `x:=2`),
the child's `x` reads 2 locally, its `y` delegates, an unbound name errors,
a variable read leaves the state unchanged, and setting `x` in the child
leaves the root node and the root's `x` (still 1) untouched. -/
theorem c9_env_get_set_witness :
    envGet 2 heapW9 1 "x" = .ok (.num 2) ∧
    envGet 2 heapW9 1 "y" = envGet 1 heapW9 0 "y" ∧
    envGet 1 heapW9 0 "z" = .error (.varNotFound "z") ∧
    evaluate 1 (.str "$x") 1 ⟨heapW9, 0⟩ = (.ok (.num 2), ⟨heapW9, 0⟩) ∧
    (envSet heapW9 1 "x" (.num 9))[0]? = heapW9[0]? ∧
    envGet 2 (envSet heapW9 1 "x" (.num 9)) 0 "x" = envGet 2 heapW9 0 "x" ∧
    envGet 2 (envSet heapW9 1 "x" (.num 9)) 0 "x" = .ok (.num 1) := by
  refine ⟨?_, ?_, ?_, ?_, ?_, ?_, rfl⟩
  · exact c9_env_get_set.1 1 heapW9 1 "x"
      ⟨[("x", .num 2)], [], some 0, false, none⟩ (.num 2) rfl rfl
  · exact c9_env_get_set.2.1 1 heapW9 1 "y"
      ⟨[("x", .num 2)], [], some 0, false, none⟩ 0 rfl rfl rfl
  · exact c9_env_get_set.2.2.1 0 heapW9 0 "z"
      ⟨[("x", .num 1), ("y", .num 7)], [], none, false, none⟩ rfl rfl rfl
  · exact c9_env_get_set.2.2.2.1 0 "$x" 1 ⟨heapW9, 0⟩ (.num 2) rfl
  · exact c9_env_get_set.2.2.2.2.1 heapW9 1 "x" (.num 9) 0 (by decide)
  · refine c9_env_get_set.2.2.2.2.2 2 heapW9 1 "x" (.num 9) 0 "x" ?_ (by decide)
    intro a nd ha q hq
    match a with
    | 0 =>
      simp [heapW9] at ha
      rw [← ha] at hq
      simp at hq
    | 1 =>
      simp [heapW9] at ha
      rw [← ha] at hq
      simp at hq
      omega
    | a + 2 => simp [heapW9] at ha

/-- C3 amended: a `POST /method` save succeeds — 200 when the addressed
`(class, selector)` method row already exists, else 201 — exactly for
payloads whose `className` and `selector` fields are strings that are
non-empty after trimming whitespace and whose `arguments` and `body` fields
are arrays (element types are not checked); every other payload is rejected
with 400.  In particular `body` must be an array, not an arbitrary Value;
`argNames` elements are not validated to be strings; and whitespace-only
names are rejected. -/
theorem c3_save_validation_amended (db : DB) (data : JVal) (hwf : DBWF db) :
    (SavePayloadAccepted data →
      (saveMethod db data).1 = if saveTargetExists db data then 200 else 201) ∧
    (¬ SavePayloadAccepted data → (saveMethod db data).1 = 400) := by
  constructor
  · rintro ⟨⟨cn, hcn, hcnt⟩, ⟨sel, hsel, hselt⟩, ⟨xs, hargs⟩, ⟨bs, hbody⟩⟩
    cases data with
    | jobj fields =>
      rw [saveMethod]
      simp only [jsFalsy, isJsObjectShaped, Bool.not_true, Bool.or_false,
        Bool.false_eq_true, if_false, hcn, hsel, hargs, hbody, hcnt, hselt,
        ite_false]
      rw [saveTargetExists, hcn, hsel]
      rw [saveCore]
      cases hfc : findClass db.classes (jsTrim cn) with
      | some c =>
        simp only [hfc]
        cases hfm : findMethodRow db.methods c.id (jsTrim sel) with
        | some m => simp [hfm]
        | none => simp [hfm]
      | none =>
        simp only [hfc]
        have hfresh : findMethodRow db.methods db.nextId (jsTrim sel) = none :=
          findMethodRow_none_of_fresh db.methods db.nextId (jsTrim sel)
            (fun m hm => hwf.2 m hm)
        simp [hfresh]
    | jnum q => simp [getField] at hcn
    | jstr s => simp [getField] at hcn
    | jbool b => simp [getField] at hcn
    | jnull => simp [getField] at hcn
    | jarr xs2 => simp [getField] at hcn
  · intro hno
    cases data with
    | jnum q => simp [saveMethod, jsFalsy, isJsObjectShaped]
    | jstr s => simp [saveMethod, jsFalsy, isJsObjectShaped]
    | jbool b => simp [saveMethod, jsFalsy, isJsObjectShaped]
    | jnull => simp [saveMethod, jsFalsy, isJsObjectShaped]
    | jarr xs2 => simp [saveMethod, jsFalsy, isJsObjectShaped, getField]
    | jobj fields =>
      rw [saveMethod]
      simp only [jsFalsy, isJsObjectShaped, Bool.not_true, Bool.or_false,
        Bool.false_eq_true, if_false]
      cases hcn : getField (.jobj fields) "className" with
      | none => simp
      | some jv =>
        cases jv with
        | jstr cn =>
          by_cases hct : jsTrim cn = ""
          · simp [hct]
          · simp only [hct, ite_false, if_false]
            cases hsel : getField (.jobj fields) "selector" with
            | none => simp
            | some jv2 =>
              cases jv2 with
              | jstr sel =>
                by_cases hst : jsTrim sel = ""
                · simp [hst]
                · simp only [hst, ite_false, if_false]
                  cases hargs : getField (.jobj fields) "arguments" with
                  | none => simp
                  | some jv3 =>
                    cases jv3 with
                    | jarr xs =>
                      cases hbody : getField (.jobj fields) "body" with
                      | none => simp
                      | some jv4 =>
                        cases jv4 with
                        | jarr bs =>
                          exact absurd ⟨⟨cn, hcn, hct⟩, ⟨sel, hsel, hst⟩,
                            ⟨xs, hargs⟩, ⟨bs, hbody⟩⟩ hno
                        | jnum q => simp
                        | jstr s => simp
                        | jbool b => simp
                        | jnull => simp
                        | jobj fs => simp
                    | jnum q => simp
                    | jstr s => simp
                    | jbool b => simp
                    | jnull => simp
                    | jobj fs => simp
              | jnum q => simp
              | jbool b => simp
              | jnull => simp
              | jarr a => simp
              | jobj fs => simp
        | jnum q => simp
        | jbool b => simp
        | jnull => simp
        | jarr a => simp
        | jobj fs => simp

/-- C3 witness: the fully valid payload creates its method (201) on an empty
store, and the body-not-array payload is rejected with 400. -/
theorem c3_save_validation_amended_witness :
    (saveMethod ⟨[], [], 0⟩ payloadValid).1 = 201 ∧
    (saveMethod ⟨[], [], 0⟩ payloadBodyNotArray).1 = 400 := by
  have hwf : DBWF ⟨[], [], 0⟩ := by
    constructor <;> intro x hx <;> simp at hx
  constructor
  · have hacc : SavePayloadAccepted payloadValid :=
      ⟨⟨"Foo", rfl, by decide⟩, ⟨"bar:", rfl, by decide⟩,
       ⟨[.jstr "x"], rfl⟩, ⟨[], rfl⟩⟩
    have h := (c3_save_validation_amended ⟨[], [], 0⟩ payloadValid hwf).1 hacc
    have hx : saveTargetExists ⟨[], [], 0⟩ payloadValid = false := rfl
    rw [hx] at h
    simpa using h
  · refine (c3_save_validation_amended ⟨[], [], 0⟩ payloadBodyNotArray hwf).2 ?_
    rintro ⟨-, -, -, ⟨bs, hb⟩⟩
    have : getField payloadBodyNotArray "body" = some (.jnum 42) := rfl
    rw [this] at hb
    simp at hb

/-! ### Lemmas about the persistence store for the trimming claim -/

theorem findClass_name_eq :
    ∀ (cs : List DBClass) (n : String) (c : DBClass),
      findClass cs n = some c → c.name = n := by
  intro cs
  induction cs with
  | nil => intro n c h; simp [findClass] at h
  | cons c0 rest ih =>
    intro n c h
    by_cases he : c0.name = n
    · simp only [findClass, he, if_true, Option.some.injEq] at h
      rw [← h]
      exact he
    · rw [findClass, if_neg he] at h
      exact ih n c h

theorem findClass_append_fresh :
    ∀ (cs : List DBClass) (n : String) (i : Nat),
      findClass cs n = none →
      findClass (cs ++ [DBClass.mk i n]) n = some (DBClass.mk i n) := by
  intro cs
  induction cs with
  | nil => intro n i _; simp [findClass]
  | cons c0 rest ih =>
    intro n i h
    by_cases he : c0.name = n
    · simp [findClass, he] at h
    · rw [findClass, if_neg he] at h
      rw [List.cons_append, findClass, if_neg he]
      exact ih n i h

theorem findMethodRow_keys :
    ∀ (ms : List DBMethod) (cid : Nat) (sel : String) (m : DBMethod),
      findMethodRow ms cid sel = some m → m.classId = cid ∧ m.selector = sel := by
  intro ms
  induction ms with
  | nil => intro cid sel m h; simp [findMethodRow] at h
  | cons m0 rest ih =>
    intro cid sel m h
    by_cases hk : m0.classId = cid ∧ m0.selector = sel
    · rw [findMethodRow, if_pos hk] at h
      cases h
      exact hk
    · rw [findMethodRow, if_neg hk] at h
      exact ih cid sel m h

theorem findMethodRow_append_fresh :
    ∀ (ms : List DBMethod) (cid : Nat) (sel : String) (row : DBMethod),
      findMethodRow ms cid sel = none →
      row.classId = cid → row.selector = sel →
      findMethodRow (ms ++ [row]) cid sel = some row := by
  intro ms
  induction ms with
  | nil =>
    intro cid sel row _ hc hs
    simp [findMethodRow, hc, hs]
  | cons m0 rest ih =>
    intro cid sel row h hc hs
    by_cases hk : m0.classId = cid ∧ m0.selector = sel
    · rw [findMethodRow, if_pos hk] at h
      simp at h
    · rw [findMethodRow, if_neg hk] at h
      rw [List.cons_append, findMethodRow, if_neg hk]
      exact ih cid sel row h hc hs

theorem findMethodRow_update_found :
    ∀ (ms : List DBMethod) (cid : Nat) (sel : String) (m : DBMethod)
      (aj bj : JVal),
      findMethodRow ms cid sel = some m →
      findMethodRow (updateMethodRow ms cid sel aj bj) cid sel =
        some { m with argumentsJson := aj, bodyJson := bj } := by
  intro ms
  induction ms with
  | nil => intro cid sel m aj bj h; simp [findMethodRow] at h
  | cons m0 rest ih =>
    intro cid sel m aj bj h
    by_cases hk : m0.classId = cid ∧ m0.selector = sel
    · rw [findMethodRow, if_pos hk] at h
      cases h
      rw [updateMethodRow, if_pos hk, findMethodRow, if_pos hk]
    · rw [findMethodRow, if_neg hk] at h
      rw [updateMethodRow, if_neg hk, findMethodRow, if_neg hk]
      exact ih cid sel m aj bj h

theorem saveCore_stores (db : DB) (cn sel : String) (args body : List JVal)
    (hwf : DBWF db) :
    ∃ c, findClass (saveCore db cn sel args body).2.classes cn = some c ∧
      c.name = cn ∧
      ∃ m, findMethodRow (saveCore db cn sel args body).2.methods c.id sel
          = some m ∧ m.selector = sel ∧
        m.argumentsJson = .jarr args ∧ m.bodyJson = .jarr body := by
  rw [saveCore]
  cases hfc : findClass db.classes cn with
  | some c =>
    simp only [hfc]
    cases hfm : findMethodRow db.methods c.id sel with
    | some m =>
      simp only [hfm]
      refine ⟨c, hfc, findClass_name_eq db.classes cn c hfc,
        { m with argumentsJson := .jarr args, bodyJson := .jarr body },
        ?_, (findMethodRow_keys db.methods c.id sel m hfm).2, rfl, rfl⟩
      exact findMethodRow_update_found db.methods c.id sel m
        (.jarr args) (.jarr body) hfm
    | none =>
      simp only [hfm]
      refine ⟨c, hfc, findClass_name_eq db.classes cn c hfc,
        DBMethod.mk db.nextId c.id sel (.jarr args) (.jarr body),
        ?_, rfl, rfl, rfl⟩
      exact findMethodRow_append_fresh db.methods c.id sel _ hfm rfl rfl
  | none =>
    simp only [hfc]
    have hfresh : findMethodRow db.methods db.nextId sel = none :=
      findMethodRow_none_of_fresh db.methods db.nextId sel
        (fun m hm => hwf.2 m hm)
    simp only [hfresh]
    refine ⟨DBClass.mk db.nextId cn, ?_, rfl,
      DBMethod.mk (db.nextId + 1) db.nextId sel (.jarr args) (.jarr body),
      ?_, rfl, rfl, rfl⟩
    · exact findClass_append_fresh db.classes cn db.nextId hfc
    · exact findMethodRow_append_fresh db.methods db.nextId sel _ hfresh rfl rfl

theorem saveCore_answers_200 (db : DB) (cn sel : String)
    (args body : List JVal) (c : DBClass) (m : DBMethod)
    (hfc : findClass db.classes cn = some c)
    (hfm : findMethodRow db.methods c.id sel = some m) :
    (saveCore db cn sel args body).1 = 200 := by
  rw [saveCore]
  simp [hfc, hfm]

theorem saveMethod_valid_eq_core (db : DB) (fields : List (String × JVal))
    (cn sel : String) (args body : List JVal)
    (hcn : getField (.jobj fields) "className" = some (.jstr cn))
    (hsel : getField (.jobj fields) "selector" = some (.jstr sel))
    (hargs : getField (.jobj fields) "arguments" = some (.jarr args))
    (hbody : getField (.jobj fields) "body" = some (.jarr body))
    (hct : jsTrim cn ≠ "") (hst : jsTrim sel ≠ "") :
    saveMethod db (.jobj fields) =
      saveCore db (jsTrim cn) (jsTrim sel) args body := by
  rw [saveMethod]
  simp only [jsFalsy, isJsObjectShaped, Bool.not_true, Bool.or_false,
    Bool.false_eq_true, if_false, hcn, hsel, hargs, hbody, hct, hst,
    ite_false]

/-- C10: a valid save payload (object with string `className`/`selector`
non-empty after trimming and array `arguments`/`body`) is persisted under
the TRIMMED names (persistenceHandlers.ts:259-274): (a) the handler's result
is exactly the transaction on `jsTrim className` and `jsTrim selector`;
(b) afterwards a class row named by the trimmed string exists and holds the
saved method under the trimmed selector; (c) any second valid payload whose
`className` and `selector` agree with the first after trimming — in
particular one differing only in surrounding whitespace — addresses the
same `(class, selector)` entry and so updates it, answering 200; (d) the
read endpoint `GET /methods/:className` matches the stored (trimmed) name
verbatim: the trimmed name answers 200 and any name without a class row —
such as the original untrimmed one — answers 404
(persistenceHandlers.ts:87-95). -/
theorem c10_save_trims_names
    (db : DB) (hwf : DBWF db) (fields : List (String × JVal))
    (cn sel : String) (args body : List JVal)
    (hcn : getField (.jobj fields) "className" = some (.jstr cn))
    (hsel : getField (.jobj fields) "selector" = some (.jstr sel))
    (hargs : getField (.jobj fields) "arguments" = some (.jarr args))
    (hbody : getField (.jobj fields) "body" = some (.jarr body))
    (hct : jsTrim cn ≠ "") (hst : jsTrim sel ≠ "") :
    saveMethod db (.jobj fields) =
      saveCore db (jsTrim cn) (jsTrim sel) args body ∧
    (∃ c, findClass (saveMethod db (.jobj fields)).2.classes (jsTrim cn) =
        some c ∧ c.name = jsTrim cn ∧
      ∃ m, findMethodRow (saveMethod db (.jobj fields)).2.methods c.id
          (jsTrim sel) = some m ∧ m.selector = jsTrim sel ∧
        m.argumentsJson = .jarr args ∧ m.bodyJson = .jarr body) ∧
    (∀ (fields2 : List (String × JVal)) (cn2 sel2 : String)
        (args2 body2 : List JVal),
      getField (.jobj fields2) "className" = some (.jstr cn2) →
      getField (.jobj fields2) "selector" = some (.jstr sel2) →
      getField (.jobj fields2) "arguments" = some (.jarr args2) →
      getField (.jobj fields2) "body" = some (.jarr body2) →
      jsTrim cn2 = jsTrim cn → jsTrim sel2 = jsTrim sel →
      (saveMethod (saveMethod db (.jobj fields)).2 (.jobj fields2)).1 = 200) ∧
    (getMethods (saveMethod db (.jobj fields)).2 (jsTrim cn)).1 = 200 ∧
    (∀ q, findClass (saveMethod db (.jobj fields)).2.classes q = none →
      (getMethods (saveMethod db (.jobj fields)).2 q).1 = 404) := by
  have heq := saveMethod_valid_eq_core db fields cn sel args body
    hcn hsel hargs hbody hct hst
  obtain ⟨c, hc, hcname, m, hm, hmsel, hma, hmb⟩ :=
    saveCore_stores db (jsTrim cn) (jsTrim sel) args body hwf
  have hmkeys := findMethodRow_keys _ c.id (jsTrim sel) m hm
  refine ⟨heq, ⟨c, by rw [heq]; exact hc, hcname,
    m, by rw [heq]; exact hm, hmsel, hma, hmb⟩, ?_, ?_, ?_⟩
  · intro fields2 cn2 sel2 args2 body2 hcn2 hsel2 hargs2 hbody2 htc hts
    have hct2 : jsTrim cn2 ≠ "" := by rw [htc]; exact hct
    have hst2 : jsTrim sel2 ≠ "" := by rw [hts]; exact hst
    have heq2 := saveMethod_valid_eq_core (saveMethod db (.jobj fields)).2
      fields2 cn2 sel2 args2 body2 hcn2 hsel2 hargs2 hbody2 hct2 hst2
    rw [heq2, htc, hts, heq]
    exact saveCore_answers_200 _ _ _ args2 body2 c m hc hm
  · rw [heq]
    simp [getMethods, hc]
  · intro q hq
    simp [getMethods, hq]

/-- C10 witness: saving `" Foo "`/`" bar "` into an empty store creates
(201) the class row `Foo` with the method under `bar`; re-saving with the
already-trimmed names `Foo`/`bar` updates it (200); `GET /methods/Foo`
answers 200 while `GET /methods/ Foo ` (the untrimmed name) answers 404. -/
theorem c10_save_trims_names_witness :
    (saveMethod ⟨[], [], 0⟩ payloadTrimA).1 = 201 ∧
    (saveMethod dbAfterA payloadTrimB).1 = 200 ∧
    (getMethods dbAfterA (jsTrim " Foo ")).1 = 200 ∧
    jsTrim " Foo " = "Foo" ∧
    findClass dbAfterA.classes " Foo " = none ∧
    (getMethods dbAfterA " Foo ").1 = 404 := by
  have h := c10_save_trims_names ⟨[], [], 0⟩
    (by constructor <;> intro x hx <;> simp at hx)
    [("className", .jstr " Foo "), ("selector", .jstr " bar "),
     ("arguments", .jarr []), ("body", .jarr [.jnum 1])]
    " Foo " " bar " [] [.jnum 1] rfl rfl rfl rfl (by decide) (by decide)
  refine ⟨rfl, ?_, h.2.2.2.1, rfl, rfl, h.2.2.2.2 " Foo " rfl⟩
  exact h.2.2.1
    [("className", .jstr "Foo"), ("selector", .jstr "bar"),
     ("arguments", .jarr []), ("body", .jarr [.jnum 2])]
    "Foo" "bar" [] [.jnum 2] rfl rfl rfl rfl (by decide) (by decide)

end Son
